import Mathlib

/-
Verification of the AwardWiz award-flight scraper repository.

This file shallowly embeds the TypeScript sources:
  - awardwiz-scrapers/scrapers/united.ts   (united scraper)
  - awardwiz-scrapers/scrapers/aa.ts       (aa and alaska scrapers)
  - awardwiz-scrapers/integrations/awardwallet.ts
  - the transfer-partner integration module
and models the Arkalis session orchestrator from its documented contract
(the arkalis engine itself is not vendored in this repository).

Pure functions become Lean functions; thrown exceptions become `Except`;
JavaScript `undefined`-able values become `Option`.  JavaScript string
operations are re-implemented over `List Char` so that everything is
executable by the kernel.
-/

/-! ## String helpers (ASCII models of the JS string operations used) -/

/-- ASCII lower-casing of one character, as `String.prototype.toLowerCase`
behaves on the ASCII program/partner names appearing in this repository. -/
def lowerChar (c : Char) : Char :=
  if 65 ≤ c.toNat ∧ c.toNat ≤ 90 then Char.ofNat (c.toNat + 32) else c

/-- `s.toLowerCase()` (ASCII). -/
def lowerStr (s : String) : String := ⟨s.data.map lowerChar⟩

/-- Contiguous-subsequence test on character lists. -/
def hasInfix (sub : List Char) : List Char → Bool
  | [] => sub.isEmpty
  | x :: xs => sub.isPrefixOf (x :: xs) || hasInfix sub xs

/-- `s.includes(sub)` for JS strings. -/
def strIncludes (s sub : String) : Bool := hasInfix sub.data s.data

/-- `s.slice(0, n)` / `s.substring(0, n)` for JS strings. -/
def strTake (s : String) (n : Nat) : String := ⟨s.data.take n⟩

/-- `s.startsWith(sub)` for JS strings. -/
def strStartsWith (s sub : String) : Bool := sub.data.isPrefixOf s.data

/-- `s.replace(pat, "")` for a single-character pattern: JS `replace` with a
string pattern replaces only the first occurrence. -/
def dropFirstChar (c : Char) : List Char → List Char
  | [] => []
  | x :: xs => if x = c then xs else x :: dropFirstChar c xs

/-- `s.replace(pat, repl)` for single-character pattern and replacement:
only the first occurrence is replaced. -/
def replaceFirstChar (c r : Char) : List Char → List Char
  | [] => []
  | x :: xs => if x = c then r :: xs else x :: replaceFirstChar c r xs

/-- JS `a || b` on possibly-undefined strings: the empty string is falsy. -/
def jsOrStr (a : Option String) (b : String) : String :=
  match a with
  | some s => if s = "" then b else s
  | none => b

/-! ## Shared scraper data model (awardwiz-types) -/

/-- One fare on a flight (`FlightFare` in awardwiz-types). -/
structure FlightFare where
  cabin : String
  miles : Nat
  cash : Nat
  currencyOfCash : String
  bookingClass : Option String
  scraper : String
  isSaverFare : Option Bool := none
deriving Repr, DecidableEq

/-- The amenities block of a flight record. -/
structure FlightAmenities where
  hasPods : Option Bool
  hasWiFi : Option Bool
deriving Repr, DecidableEq

/-- One standardized flight record (`FlightWithFares` in awardwiz-types). -/
structure FlightWithFares where
  departureDateTime : String
  arrivalDateTime : String
  origin : String
  destination : String
  flightNo : String
  duration : Nat
  aircraft : String
  fares : List FlightFare
  amenities : FlightAmenities
deriving Repr, DecidableEq

/-- A search query (`AwardWizQuery`): origin, destination, departure date. -/
structure AwardWizQuery where
  origin : String
  destination : String
  departureDate : String
deriving Repr, DecidableEq

/-! ## Scraper metadata (the exported `meta` objects) -/

/-- `ScraperMetadata` as the scrapers populate it: `defaultTimeoutMs` is an
optional field of the arkalis metadata type and `none` models the field
being omitted from the object literal. -/
structure ScraperMetadata where
  name : String
  blockUrls : List String
  defaultTimeoutMs : Option Nat := none
deriving Repr, DecidableEq

/-- `meta` exported by united.ts. -/
def unitedMeta : ScraperMetadata :=
  ⟨"united", ["liveperson.net", "tags.tiqcdn.com"], none⟩

/-- `meta` exported by aa.ts (aa scraper). -/
def aaMeta : ScraperMetadata :=
  ⟨"aa", ["cludo.com", "entrust.net", "tiqcdn.com", "cludo.com", "*.go-mpulse.net"], none⟩

/-- `meta` exported by the alaska scraper in aa.ts. -/
def alaskaMeta : ScraperMetadata :=
  ⟨"alaska",
   ["cdn.appdynamics.com", "*.siteintercept.qualtrics.com", "dc.services.visualstudio.com",
    "js.adsrvr.org", "siteintercept.qualtrics.com", "bing.com", "tiktok.com",
    "www.googletagmanager.com", "facebook.net",
    "demdex.net", "cdn.uplift-platform.com", "contentcdnprodacct.blob.core.windows.net",
    "doubleclick.net",
    "www.google-analytics.com", "collect.tealiumiq.com", "alaskaair-app.quantummetric.com",
    "facebook.com",
    "rl.quantummetric.com", "app.securiti.ai", "cdn.optimizely.com"],
   none⟩

/-! ## WaitCondition object literals passed to `arkalis.waitFor`

The scrapers pass plain object literals; we embed each literal as the
association list of its fields so that claims about field names are
directly statable. -/

/-- A primitive JSON-like field value appearing in the wait-condition
object literals. -/
inductive JsonVal where
  | str (s : String)
  | num (n : Nat)
  | bool (b : Bool)
deriving Repr, DecidableEq

/-- The "loaded" condition united.ts passes to `waitFor`. -/
def unitedLoadedCondFields : List (String × JsonVal) :=
  [("type", .str "url"), ("url", .str "https://www.united.com/api/auth/anonymous-token")]

/-- The "anti-botting" condition united.ts passes to `waitFor`. -/
def unitedAntiBottingCondFields : List (String × JsonVal) :=
  [("type", .str "html"), ("html", .str "united.com was unable to complete")]

/-- The "success" condition aa.ts passes to `waitFor`. -/
def aaSuccessCondFields : List (String × JsonVal) :=
  [("type", .str "url"), ("url", .str "https://www.aa.com/booking/*/find-flights*"),
   ("onlyStatusCode", .num 200), ("othersThrow", .bool true)]

/-- The "loaded" condition the alaska scraper passes to `waitFor`. -/
def alaskaLoadedCondFields : List (String × JsonVal) :=
  [("type", .str "url"), ("url", .str "*alaskaair.com*")]

/-- All url-type wait conditions passed to `waitFor` anywhere in the
three scrapers. -/
def scraperUrlWaitConditions : List (List (String × JsonVal)) :=
  [unitedLoadedCondFields, aaSuccessCondFields, alaskaLoadedCondFields]

/-- The shape the url-type conditions actually have in the source:
`type: "url"`, the glob under a field named `url`, and optionally
`onlyStatusCode` and `othersThrow`. -/
def urlCondSourceForm (fields : List (String × JsonVal)) : Bool :=
  fields.lookup "type" == some (.str "url") &&
  (fields.lookup "url").isSome &&
  fields.all (fun kv =>
    kv.1 == "type" || kv.1 == "url" || kv.1 == "onlyStatusCode" || kv.1 == "othersThrow")

/-- The shape the specification ascribes to url-type conditions: the glob
carried in a field named `pattern`, status fail-fast via fields named
`requiredStatus` and `onErrorStatusFail`. -/
def urlCondSpecForm (fields : List (String × JsonVal)) : Bool :=
  fields.lookup "type" == some (.str "url") &&
  (fields.lookup "pattern").isSome &&
  fields.all (fun kv =>
    kv.1 == "type" || kv.1 == "pattern" || kv.1 == "requiredStatus" ||
    kv.1 == "onErrorStatusFail")

/-! ## united.ts — types and `standardizeResults` -/

/-- One price entry of a united product. -/
structure UnitedPrice where
  Amount : Nat
  Currency : String
deriving Repr, DecidableEq

/-- The equipment block of a united flight. -/
structure UnitedEquipmentDisclosures where
  EquipmentDescription : String
deriving Repr, DecidableEq

/-- One connection entry of a united flight; carrier and number may be
absent in the payload (the code falls back with `||`). -/
structure UnitedConnection where
  MarketingCarrier : Option String
  FlightNumber : Option String
deriving Repr, DecidableEq

/-- One fare product of a united flight. -/
structure UnitedProduct where
  Prices : List UnitedPrice
  BookingCode : Option String
  Description : String
deriving Repr, DecidableEq

/-- One united flight of a trip. -/
structure UnitedFlight where
  DepartDateTime : String
  DestinationDateTime : String
  Origin : String
  Destination : String
  MarketingCarrier : String
  FlightNumber : String
  TravelMinutes : Nat
  EquipmentDisclosures : UnitedEquipmentDisclosures
  Connections : List UnitedConnection
  Products : List UnitedProduct
deriving Repr, DecidableEq

/-- A united trip (`Trip` in the united scraper types). -/
structure UnitedTrip where
  RequestedOrigin : Option String
  Origin : String
  RequestedDestination : Option String
  Destination : String
  Flights : List UnitedFlight
deriving Repr, DecidableEq

/-- The cabin-classification object literal indexed by `product.Description`
in united's `standardizeResults`. -/
def unitedCabin (d : String) : Option String :=
  if d = "United First" then some "business"
  else if d = "United Economy" then some "economy"
  else if d = "United Business" then some "business"
  else if d = "Economy" then some "economy"
  else if d = "Business" then some "business"
  else if d = "First" then some "first"
  else if d = "United Polaris business" then some "business"
  else if d = "United Premium Plus" then some "economy"
  else none

/-- The `for (const product of flight.Products)` loop body of united's
`standardizeResults`, threading `result.fares`. -/
def unitedAddProducts (fares : List FlightFare) :
    List UnitedProduct → Except String (List FlightFare)
  | [] => .ok fares
  | p :: rest =>
    match p.Prices with
    | [] => unitedAddProducts fares rest
    | price0 :: pricesRest =>
      let miles := price0.Amount
      let cash := match pricesRest with | p1 :: _ => p1.Amount | [] => 0
      let currencyOfCash := match pricesRest with | p1 :: _ => p1.Currency | [] => ""
      let bookingClass := p.BookingCode
      match unitedCabin p.Description with
      | none => Except.error ("Unknown cabin type: " ++ p.Description)
      | some cabin =>
        match fares.find? (fun fare => fare.cabin == cabin) with
        | some _ =>
          -- the source only reassigns the local `existingFare` binding here;
          -- `result.fares` is not written on this branch
          unitedAddProducts fares rest
        | none =>
          unitedAddProducts
            (fares ++ [⟨cabin, miles, cash, currencyOfCash, bookingClass, "united", none⟩])
            rest

/-- The flight number string united's `standardizeResults` builds,
including the connection suffixes. -/
def unitedFlightNo (flight : UnitedFlight) : String :=
  let base := flight.MarketingCarrier ++ " " ++ flight.FlightNumber
  if flight.Connections.length > 0 then
    base ++ String.join (flight.Connections.map (fun c =>
      " / " ++ jsOrStr c.MarketingCarrier flight.MarketingCarrier ++ " "
        ++ jsOrStr c.FlightNumber ""))
  else base

/-- One iteration of the `for (const flight of unitedTrip.Flights)` loop:
`none` models a `continue`d (filtered-out) flight, `error` a thrown
exception. -/
def unitedFlightResult (query : AwardWizQuery) (trip : UnitedTrip)
    (flight : UnitedFlight) : Except String (Option FlightWithFares) :=
  let departureDateTime := flight.DepartDateTime ++ ":00"
  let arrivalDateTime := flight.DestinationDateTime ++ ":00"
  if flight.Origin ≠ jsOrStr trip.RequestedOrigin trip.Origin then .ok none
  else if flight.Destination ≠ jsOrStr trip.RequestedDestination trip.Destination then .ok none
  else if strTake departureDateTime 10 ≠ strTake query.departureDate 10 then .ok none
  else do
    let fares ← unitedAddProducts [] flight.Products
    .ok (some ⟨departureDateTime, arrivalDateTime, flight.Origin, flight.Destination,
      unitedFlightNo flight, flight.TravelMinutes,
      flight.EquipmentDisclosures.EquipmentDescription, fares, ⟨none, none⟩⟩)

/-- Recursion over the flight list for `unitedStandardizeResults`. -/
def unitedGo (query : AwardWizQuery) (trip : UnitedTrip) :
    List UnitedFlight → Except String (List FlightWithFares)
  | [] => .ok []
  | f :: rest => do
    let r ← unitedFlightResult query trip f
    let rs ← unitedGo query trip rest
    .ok (match r with | some x => x :: rs | none => rs)

/-- united's `standardizeResults`: processes the trip's flights in order,
collecting the records of the flights that pass the filters. -/
def unitedStandardizeResults (query : AwardWizQuery) (unitedTrip : UnitedTrip) :
    Except String (List FlightWithFares) :=
  unitedGo query unitedTrip unitedTrip.Flights

/-- The `data` payload of a united FetchFlights response. -/
structure UnitedResponseData where
  Trips : Option (List UnitedTrip)
deriving Repr, DecidableEq

/-- A united FetchFlights response. -/
structure UnitedResponse where
  data : Option UnitedResponseData
deriving Repr, DecidableEq

/-- The interactions united's `runScraper` has with the page, given as an
environment: the name of the `waitFor` condition that won the race, the two
`evaluate` results, and the outcome of `JSON.parse` on the second. -/
structure UnitedScrapeEnv where
  pageResultName : String
  tokenResp : String
  responseText : String
  parsedResponse : Except String UnitedResponse
deriving Repr

/-- united's `runScraper`, shallowly embedded over a `UnitedScrapeEnv`. -/
def unitedRunScraper (env : UnitedScrapeEnv) (query : AwardWizQuery) :
    Except String (List FlightWithFares) :=
  if env.pageResultName = "anti-botting" then
    .error "anti-botting"
  else if env.tokenResp = "" then
    .error "Failed to get auth token"
  else if env.responseText = "" then
    .error "Empty response from FetchFlights"
  else do
    let fetchFlights ← env.parsedResponse
    match fetchFlights.data with
    | none => .ok []
    | some d =>
      match d.Trips with
      | none => .ok []
      | some [] => .ok []
      | some (trip0 :: _) => unitedStandardizeResults query trip0

/-! ## aa.ts — types and `standardizeResults` (aa scraper) -/

/-- The flight identity block of an AA segment. -/
structure AAFlightId where
  carrierCode : String
  flightNumber : String
deriving Repr, DecidableEq

/-- An airport reference in an AA segment. -/
structure AAAirport where
  code : String
deriving Repr, DecidableEq

/-- The aircraft block of an AA leg. -/
structure AAAircraft where
  name : String
deriving Repr, DecidableEq

/-- One leg of an AA segment. -/
structure AALeg where
  aircraft : AAAircraft
  amenities : List String
deriving Repr, DecidableEq

/-- One segment of an AA slice. -/
structure AASegment where
  departureDateTime : String
  arrivalDateTime : String
  origin : AAAirport
  destination : AAAirport
  flight : AAFlightId
  legs : List AALeg
deriving Repr, DecidableEq

/-- A money amount in an AA pricing product. -/
structure AAMoney where
  amount : Nat
  currency : String
deriving Repr, DecidableEq

/-- One pricing product of an AA slice. -/
structure AAPricingDetail where
  productAvailable : Bool
  extendedFareCode : Option String
  productType : String
  perPassengerTaxesAndFees : AAMoney
  perPassengerAwardPoints : Nat
deriving Repr, DecidableEq

/-- One slice of an AA response. -/
structure AASlice where
  segments : List AASegment
  durationInMinutes : Nat
  pricingDetail : List AAPricingDetail
deriving Repr, DecidableEq

/-- The revenue-cabin object literal indexed by the first character of
`extendedFareCode` in aa's `standardizeResults`. -/
def aaCabinByFareCode (code : String) : Option String :=
  if code = "F" then some "first" else if code = "J" then some "business"
  else if code = "W" then some "economy" else if code = "Y" then some "economy"
  else none

/-- The award-cabin object literal indexed by the first character of
`extendedFareCode` in aa's `standardizeResults`. -/
def aaAwardCabinByFareCode (code : String) : Option String :=
  if code = "Z" then some "first" else if code = "U" then some "business"
  else if code = "T" then some "economy" else if code = "X" then some "economy"
  else none

/-- The cabin object literal indexed by `product.productType` in aa's
`standardizeResults`. -/
def aaProductTypeCabin (t : String) : Option String :=
  if t = "COACH" then some "economy" else if t = "PREMIUM_ECONOMY" then some "economy"
  else if t = "FIRST" then some "first" else if t = "BUSINESS" then some "business"
  else none

/-- `product.extendedFareCode?.[0] ?? ""`: the first character of the fare
code as a one-character string, or `""` when the code is absent or empty. -/
def aaFareCodeHead (extendedFareCode : Option String) : String :=
  match extendedFareCode with
  | some s => strTake s 1
  | none => ""

/-- `product.extendedFareCode?.[0]` as stored into `bookingClass`:
`none` when the code is absent or empty. -/
def aaBookingClass (extendedFareCode : Option String) : Option String :=
  match extendedFareCode with
  | some s => if s = "" then none else some (strTake s 1)
  | none => none

/-- The cabin classification of one AA pricing product, including the
JetBlue first-to-business remap; `error` models the thrown
`Unknown cabin type` exception (the source message also carries the fare
code, product type and a JSON dump of the segment). -/
def aaCabinOf (seg : AASegment) (product : AAPricingDetail) : Except String String :=
  let head := aaFareCodeHead product.extendedFareCode
  let cabin0 := (aaAwardCabinByFareCode head).orElse
    (fun _ => (aaCabinByFareCode head).orElse
      (fun _ => aaProductTypeCabin product.productType))
  match cabin0 with
  | none => .error ("Unknown cabin type on " ++ seg.flight.carrierCode ++ " "
      ++ seg.flight.flightNumber)
  | some c =>
    .ok (if seg.flight.carrierCode = "B6" ∧ c = "first" then "business" else c)

/-- The `FlightFare` aa's `standardizeResults` maps one available pricing
product to. -/
def aaFareOf (seg : AASegment) (product : AAPricingDetail) : Except String FlightFare := do
  let cabin ← aaCabinOf seg product
  .ok ⟨cabin, product.perPassengerAwardPoints, product.perPassengerTaxesAndFees.amount,
       product.perPassengerTaxesAndFees.currency, aaBookingClass product.extendedFareCode,
       "aa", some (aaAwardCabinByFareCode (aaFareCodeHead product.extendedFareCode)).isSome⟩

/-- The `.map` over the `productAvailable`-filtered pricing products,
in order, propagating the first thrown exception. -/
def aaBuildFares (seg : AASegment) : List AAPricingDetail → Except String (List FlightFare)
  | [] => .ok []
  | p :: rest => do
    let fare ← aaFareOf seg p
    let rest2 ← aaBuildFares seg rest
    .ok (fare :: rest2)

/-- The body of the `.reduce` in aa's `standardizeResults`: keep at most
one fare per cabin, replacing the kept fare unless it is strictly
cheaper in miles than the incoming one. -/
def addLowestFare (lowestCabinFares : List FlightFare) (fare : FlightFare) :
    List FlightFare :=
  match lowestCabinFares.find? (fun check => check.cabin == fare.cabin) with
  | some existing =>
    if existing.miles < fare.miles then lowestCabinFares
    else lowestCabinFares.filter (fun check => check.cabin != fare.cabin) ++ [fare]
  | none => lowestCabinFares.filter (fun check => check.cabin != fare.cabin) ++ [fare]

/-- The `.reduce(..., [])` folding `addLowestFare` over the mapped fares. -/
def lowestFares (fares : List FlightFare) : List FlightFare :=
  fares.foldl addLowestFare []

/-- `.replace(" ", "").replace("T", " ").slice(0, 16)` as applied to AA
segment datetimes. -/
def aaDateTimeFmt (s : String) : String :=
  strTake ⟨replaceFirstChar 'T' ' ' (dropFirstChar ' ' s.data)⟩ 16

/-- `Array.prototype.join(sep)` over strings. -/
def joinSep (sep : String) : List String → String
  | [] => ""
  | [x] => x
  | x :: xs => x ++ sep ++ joinSep sep xs

/-- The record-building tail of one `slices.map(...)` iteration of aa's
`standardizeResults`, after the fares have been computed: `none` models a
slice filtered out by the origin/destination check. -/
def aaSliceAssemble (slice : AASlice) (query : AwardWizQuery) (segment : AASegment)
    (restSegs : List AASegment) (leg : AALeg) (fares : List FlightFare) :
    Option FlightWithFares :=
  let lastSegment := ((segment :: restSegs).getLast?).getD segment
  let result0 : FlightWithFares :=
    ⟨aaDateTimeFmt segment.departureDateTime, aaDateTimeFmt segment.arrivalDateTime,
     segment.origin.code, segment.destination.code,
     segment.flight.carrierCode ++ " " ++ segment.flight.flightNumber,
     slice.durationInMinutes, leg.aircraft.name, fares,
     ⟨some (leg.amenities.any (fun a => strIncludes a "lie-flat")),
      some (leg.amenities.any (fun a => strIncludes a "wifi"))⟩⟩
  if segment.origin.code ≠ query.origin ∨ lastSegment.destination.code ≠ query.destination then
    none
  else if restSegs.length + 1 > 1 then
    some { result0 with
      arrivalDateTime := aaDateTimeFmt lastSegment.arrivalDateTime
      destination := lastSegment.destination.code
      flightNo := joinSep " / " ((segment :: restSegs).map
        (fun s => s.flight.carrierCode ++ " " ++ s.flight.flightNumber))
      aircraft := joinSep " / " ((segment :: restSegs).map
        (fun s => match s.legs.head? with | some l => l.aircraft.name | none => "")) }
  else some result0

/-- One element of the `slices.map(...)` in aa's `standardizeResults`:
`none` models a slice filtered out by the origin/destination check,
`error` a thrown exception (including the crash on an empty `segments`
or `legs` array that the `!`-asserted indexing would cause). -/
def aaSliceResult (slice : AASlice) (query : AwardWizQuery) :
    Except String (Option FlightWithFares) :=
  match slice.segments with
  | [] => .error "TypeError: slice.segments[0] is undefined"
  | segment :: restSegs =>
    match segment.legs with
    | [] => .error "TypeError: segment.legs[0] is undefined"
    | leg :: _ => do
      let fares0 ← aaBuildFares segment
        (slice.pricingDetail.filter (fun p => p.productAvailable))
      .ok (aaSliceAssemble slice query segment restSegs leg (lowestFares fares0))

/-- aa's `standardizeResults`: map over the slices then drop the
filtered-out ones. -/
def aaStandardizeResults : List AASlice → AwardWizQuery → Except String (List FlightWithFares)
  | [], _ => .ok []
  | s :: rest, query => do
    let r ← aaSliceResult s query
    let rs ← aaStandardizeResults rest query
    .ok (match r with | some x => x :: rs | none => rs)

/-- An AA search response: the two error channels and the slices. -/
structure AAResponse where
  errorNumber : Option Nat
  errorField : Option String
  messageField : Option String
  slices : Option (List AASlice)
deriving Repr, DecidableEq

/-- The interactions aa's `runScraper` has with the page: the `evaluate`
result text and the outcome of `JSON.parse` on it. -/
structure AAScrapeEnv where
  responseText : String
  parsedResponse : Except String AAResponse
deriving Repr

/-- aa's `runScraper`, shallowly embedded over an `AAScrapeEnv`. -/
def aaRunScraper (env : AAScrapeEnv) (query : AwardWizQuery) :
    Except String (List FlightWithFares) :=
  if env.responseText = "" then .error "Empty response from AA search API"
  else do
    let json ← env.parsedResponse
    if json.errorNumber.getD 0 > 0 ∧ json.errorField.isSome ∧ json.errorNumber ≠ some 309 then
      .error (json.errorField.getD "")
    else if json.errorNumber.getD 0 > 0 ∧ json.messageField.isSome
        ∧ json.errorNumber ≠ some 1100 then
      .error (json.messageField.getD "")
    else
      aaStandardizeResults (json.slices.getD []) query

/-! ## alaska scraper (second module in aa.ts) -/

/-- The publishing-carrier block of an alaska segment. -/
structure AlaskaPublishingCarrier where
  carrierCode : String
  flightNumber : String
deriving Repr, DecidableEq

/-- One segment of an alaska slice. -/
structure AlaskaSegment where
  departureTime : String
  arrivalTime : String
  departureStation : String
  arrivalStation : String
  publishingCarrier : AlaskaPublishingCarrier
  duration : Nat
  aircraft : String
  amenities : List String
deriving Repr, DecidableEq

/-- One fare of an alaska slice (one entry of `Object.values(slice.fares)`). -/
structure AlaskaFare where
  bookingCodes : List String
  cabins : List String
  grandTotal : Nat
  milesPoints : Nat
deriving Repr, DecidableEq

/-- One slice of an alaska response; `fares` lists
`Object.values(slice.fares)` in their iteration order. -/
structure AlaskaSlice where
  segments : List AlaskaSegment
  fares : List AlaskaFare
deriving Repr, DecidableEq

/-- An alaska search response. -/
structure AlaskaResponse where
  slices : Option (List AlaskaSlice)
deriving Repr, DecidableEq

/-- The cabin object literal indexed by `fare.cabins[0]` in alaska's
`standardizeResults`; defined exactly on the five whitelisted values the
preceding check admits. -/
def alaskaCabin (c : String) : Option String :=
  if c = "FIRST" then some "business" else if c = "MAIN" then some "economy"
  else if c = "SAVER" then some "economy" else if c = "COACH" then some "economy"
  else if c = "BUSINESS" then some "business" else none

/-- The `for (const fare of Object.values(slice.fares))` loop of alaska's
`standardizeResults`, threading `result.fares`; `error` models the thrown
exceptions (whose source messages also carry a JSON dump of the fare). -/
def alaskaAddFares (resultFares : List FlightFare) :
    List AlaskaFare → Except String (List FlightFare)
  | [] => .ok resultFares
  | fare :: rest =>
    if fare.bookingCodes.length ≠ 1 then .error "multiple booking codes"
    else if fare.cabins.length ≠ 1 then .error "multiple cabins"
    else
      let c := (fare.cabins.head?).getD ""
      match alaskaCabin c with
      | none => .error ("unknown cabin: " ++ c)
      | some cabin =>
        let fareToAdd : FlightFare :=
          ⟨cabin, fare.milesPoints, fare.grandTotal, "USD", fare.bookingCodes.head?,
           "alaska", some (c = "SAVER")⟩
        match resultFares.find? (fun f => f.cabin == fareToAdd.cabin) with
        | some existingForCabin =>
          if fareToAdd.miles < existingForCabin.miles then
            alaskaAddFares
              ((resultFares.filter (fun f => f ≠ existingForCabin)) ++ [fareToAdd]) rest
          else alaskaAddFares resultFares rest
        | none => alaskaAddFares (resultFares ++ [fareToAdd]) rest

/-- `.slice(0, 19).replace("T", " ")` as applied to alaska segment times. -/
def alaskaDateTimeFmt (s : String) : String :=
  ⟨replaceFirstChar 'T' ' ' (strTake s 19).data⟩

/-- One iteration of the `for (const slice of raw.slices!)` loop of
alaska's `standardizeResults`: `none` models a `continue`d slice. -/
def alaskaSliceResult (query : AwardWizQuery) (slice : AlaskaSlice) :
    Except String (Option FlightWithFares) :=
  if slice.segments.length > 1 then .ok none
  else
    match slice.segments with
    | [] => .error "TypeError: slice.segments[0] is undefined"
    | segment :: _ =>
      let result0 : FlightWithFares :=
        ⟨alaskaDateTimeFmt segment.departureTime, alaskaDateTimeFmt segment.arrivalTime,
         segment.departureStation, segment.arrivalStation,
         segment.publishingCarrier.carrierCode ++ " "
           ++ segment.publishingCarrier.flightNumber,
         segment.duration, segment.aircraft, [],
         ⟨none, some (segment.amenities.contains "Wi-Fi")⟩⟩
      if result0.origin ≠ query.origin ∨ result0.destination ≠ query.destination then
        .ok none
      else do
        let fares ← alaskaAddFares [] slice.fares
        .ok (some { result0 with fares := fares })

/-- Recursion over the slice list for alaska's `standardizeResults`. -/
def alaskaGo (query : AwardWizQuery) : List AlaskaSlice → Except String (List FlightWithFares)
  | [] => .ok []
  | s :: rest => do
    let r ← alaskaSliceResult query s
    let rs ← alaskaGo query rest
    .ok (match r with | some x => x :: rs | none => rs)

/-- alaska's `standardizeResults` over the (non-null-asserted) slices. -/
def alaskaStandardizeResults (raw : AlaskaResponse) (query : AwardWizQuery) :
    Except String (List FlightWithFares) :=
  alaskaGo query (raw.slices.getD [])

/-- Modelled from the spec: `arkalis.warn` — the arkalis engine is not
vendored in this repository; per the spec, `warn(message)` yields an empty
result set without treating the run as failed. -/
def arkalisWarn (_message : String) : List FlightWithFares := []

/-- The interactions alaska's `runScraper` has with the page: the
`evaluate` result text and the outcome of `JSON.parse` on it. -/
structure AlaskaScrapeEnv where
  responseText : String
  parsedResponse : Except String AlaskaResponse
deriving Repr

/-- alaska's `runScraper`, shallowly embedded over an `AlaskaScrapeEnv`. -/
def alaskaRunScraper (env : AlaskaScrapeEnv) (query : AwardWizQuery) :
    Except String (List FlightWithFares) :=
  if env.responseText = "" ∨ strStartsWith env.responseText "<!" then
    .error ("Alaska returned HTML instead of JSON: " ++ strTake env.responseText 100)
  else do
    let fetchFlights ← env.parsedResponse
    match fetchFlights.slices with
    | none => .ok (arkalisWarn "No scheduled flights between cities")
    | some _ => alaskaStandardizeResults fetchFlights query

/-! ## integrations/awardwallet.ts -/

/-- AwardWallet API credentials. -/
structure AwardWalletCredentials where
  apiKey : String
  userId : String
deriving Repr, DecidableEq

/-- One standardized balance entry (`AwardWalletBalance`). -/
structure AwardWalletBalance where
  programId : String
  programName : String
  currency : String
  balance : Int
  expirationDate : Option String
  lastUpdated : String
  isActive : Bool
deriving Repr, DecidableEq

/-- The standardized response (`AwardWalletResponse`). -/
structure AwardWalletResponse where
  success : Bool
  balances : List AwardWalletBalance
  error : Option String
deriving Repr, DecidableEq

/-- One account object of the raw AwardWallet API payload; every field may
be absent. -/
structure RawAccount where
  id : Option String
  programId : Option String
  name : Option String
  programName : Option String
  currency : Option String
  balance : Option Int
  expirationDate : Option String
  lastUpdated : Option String
  isActive : Option Bool
deriving Repr, DecidableEq

/-- The parsed raw AwardWallet API payload: `accounts` may be absent or
not an array, in which case no balances are read. -/
structure RawAwardWalletData where
  accounts : Option (List RawAccount)
deriving Repr, DecidableEq

/-- The outcome of the `fetch` call inside `fetchAwardWalletBalances`:
either the promise rejected, or a response arrived with its `ok` flag,
status, status text, and the outcome of `response.json()`. -/
inductive FetchOutcome where
  | networkError (message : String)
  | response (ok : Bool) (status : Nat) (statusText : String)
      (body : Except String RawAwardWalletData)
deriving Repr

/-- `account.balance && account.balance > 0`: the guard deciding whether
an account is turned into a balance entry (`0` is falsy). -/
def accountKept (balance : Option Int) : Bool :=
  match balance with
  | none => false
  | some b => b != 0 && b > 0

/-- The balance entry pushed for one kept account. -/
def awBalanceOfAccount (nowIso : String) (account : RawAccount) : AwardWalletBalance :=
  ⟨jsOrStr account.id (jsOrStr account.programId ""),
   jsOrStr account.name (jsOrStr account.programName ""),
   jsOrStr account.currency "miles",
   account.balance.getD 0,
   account.expirationDate,
   jsOrStr account.lastUpdated nowIso,
   account.isActive != some false⟩

/-- The `for (const account of data.accounts)` loop collecting balance
entries for the accounts with positive balance. -/
def awCollectBalances (nowIso : String) : List RawAccount → List AwardWalletBalance
  | [] => []
  | account :: rest =>
    if accountKept account.balance then
      awBalanceOfAccount nowIso account :: awCollectBalances nowIso rest
    else awCollectBalances nowIso rest

/-- `fetchAwardWalletBalances`, shallowly embedded.  The fallible
surroundings are inputs: `credentials` is the optional argument,
`loadResult` the outcome `await loadAwardWalletCredentials()` would have,
`fetchResult` the outcome of the HTTP call, and `nowIso` the current
timestamp.  Every throw inside the `try` lands in the `catch`, which
returns the failure-shaped response. -/
def fetchAwardWalletBalances (credentials : Option AwardWalletCredentials)
    (loadResult : Except String AwardWalletCredentials)
    (fetchResult : FetchOutcome) (nowIso : String) : AwardWalletResponse :=
  match credentials, loadResult with
  | none, .error e => ⟨false, [], some e⟩
  | _, _ =>
    match fetchResult with
    | .networkError message => ⟨false, [], some message⟩
    | .response ok status statusText body =>
      if !ok then
        ⟨false, [], some ("AwardWallet API error: " ++ toString status ++ " " ++ statusText)⟩
      else
        match body with
        | .error e => ⟨false, [], some e⟩
        | .ok data =>
          let balances := awCollectBalances nowIso (data.accounts.getD [])
          ⟨true, balances.mergeSort (fun a b => decide (b.balance ≤ a.balance)), none⟩

/-! ## Transfer-partner integration module -/

/-- One transfer partner of a credit-card program.  The optional
`maximumTransfer` and `bonusPromotions` fields are never populated nor
read by the module's computations and are omitted from the embedding. -/
structure TransferPartner where
  partnerProgram : String
  ratio : Int
  minimumTransfer : Int
  transferTime : String
deriving Repr, DecidableEq

/-- One possible transfer into an airline program. -/
structure TransferOption where
  fromProgram : String
  toProgram : String
  availablePoints : Int
  transferRatio : Int
  resultingMiles : Int
  transferTime : String
deriving Repr, DecidableEq

/-- The per-airline-program calculation returned by
`calculateTransferOptions`. -/
structure TransferCalculation where
  scraperName : String
  programName : String
  directBalance : Int
  transferableBalance : Int
  transferOptions : List TransferOption
deriving Repr, DecidableEq

/-- `CHASE_UR_PARTNERS`. -/
def CHASE_UR_PARTNERS : List TransferPartner :=
  [⟨"united", 1, 1000, "instant"⟩, ⟨"air-france", 1, 1000, "instant"⟩,
   ⟨"british-airways", 1, 1000, "instant"⟩, ⟨"singapore", 1, 1000, "instant"⟩,
   ⟨"southwest", 1, 1000, "instant"⟩]

/-- `AMEX_MR_PARTNERS`. -/
def AMEX_MR_PARTNERS : List TransferPartner :=
  [⟨"air-france", 1, 1000, "instant"⟩, ⟨"british-airways", 1, 1000, "instant"⟩,
   ⟨"delta", 1, 1000, "instant"⟩, ⟨"emirates", 1, 1000, "1-2 days"⟩,
   ⟨"singapore", 1, 1000, "instant"⟩]

/-- `CAPITAL_ONE_PARTNERS`. -/
def CAPITAL_ONE_PARTNERS : List TransferPartner :=
  [⟨"air-france", 1, 1000, "instant"⟩, ⟨"british-airways", 1, 1000, "instant"⟩,
   ⟨"emirates", 1, 1000, "1-2 days"⟩, ⟨"singapore", 1, 1000, "instant"⟩]

/-- `CITI_TYP_PARTNERS`. -/
def CITI_TYP_PARTNERS : List TransferPartner :=
  [⟨"air-france", 1, 1000, "1-2 days"⟩, ⟨"emirates", 1, 1000, "1-2 days"⟩,
   ⟨"singapore", 1, 1000, "1-2 days"⟩]

/-- `BILT_PARTNERS`. -/
def BILT_PARTNERS : List TransferPartner :=
  [⟨"united", 1, 1000, "instant"⟩, ⟨"alaska", 1, 1000, "instant"⟩,
   ⟨"aa", 1, 1000, "instant"⟩, ⟨"air-france", 1, 1000, "instant"⟩,
   ⟨"emirates", 1, 1000, "1-2 days"⟩]

/-- `TRANSFER_PROGRAMS`: the master mapping, in its insertion order
(`Object.entries` iterates it in this order). -/
def TRANSFER_PROGRAMS : List (String × List TransferPartner) :=
  [("chase-ur", CHASE_UR_PARTNERS), ("amex-mr", AMEX_MR_PARTNERS),
   ("capital-one", CAPITAL_ONE_PARTNERS), ("citi-typ", CITI_TYP_PARTNERS),
   ("bilt", BILT_PARTNERS)]

/-- `getScraperName`: keyword matching on the lower-cased program name. -/
def getScraperName (programName : String) : String :=
  let s := lowerStr programName
  if strIncludes s "united" then "united"
  else if strIncludes s "american" || strIncludes s "aadvantage" then "aa"
  else if strIncludes s "delta" then "delta"
  else if strIncludes s "alaska" then "alaska"
  else if strIncludes s "jetblue" then "jetblue"
  else if strIncludes s "southwest" then "southwest"
  else if strIncludes s "aeroplan" || strIncludes s "air canada" then "aeroplan"
  else if strIncludes s "flying blue" || strIncludes s "air france" then "air-france"
  else if strIncludes s "british" || strIncludes s "avios" then "british-airways"
  else if strIncludes s "qatar" then "qatar"
  else if strIncludes s "emirates" then "emirates"
  else "unknown"

/-- The airline keywords of `isAirlineProgram`. -/
def airlineKeywords : List String :=
  ["airlines", "airways", "air", "mileageplus", "aadvantage", "skymiles",
   "trueblue", "rapid rewards", "aeroplan", "flying blue", "executive club",
   "avios", "privilege club", "skywards", "mileage plan"]

/-- `isAirlineProgram`. -/
def isAirlineProgram (programName : String) : Bool :=
  airlineKeywords.any (fun keyword => strIncludes (lowerStr programName) keyword)

/-- `getCreditCardVariations`. -/
def getCreditCardVariations (program : String) : List String :=
  if program = "chase-ur" then ["chase ultimate rewards", "ultimate rewards", "chase ur"]
  else if program = "amex-mr" then
    ["american express membership rewards", "membership rewards", "amex mr", "amex points"]
  else if program = "capital-one" then ["capital one venture", "capital one", "venture miles"]
  else if program = "citi-typ" then ["citi thankyou", "thankyou points", "citi typ", "citi points"]
  else if program = "bilt" then ["bilt rewards", "bilt points"]
  else [program]

/-- `getProgramDisplayName`. -/
def getProgramDisplayName (scraperName : String) : String :=
  if scraperName = "united" then "United MileagePlus"
  else if scraperName = "aa" then "American AAdvantage"
  else if scraperName = "delta" then "Delta SkyMiles"
  else if scraperName = "alaska" then "Alaska Mileage Plan"
  else if scraperName = "jetblue" then "JetBlue TrueBlue"
  else if scraperName = "southwest" then "Southwest Rapid Rewards"
  else if scraperName = "aeroplan" then "Air Canada Aeroplan"
  else if scraperName = "air-france" then "Air France Flying Blue"
  else if scraperName = "british-airways" then "British Airways Executive Club"
  else if scraperName = "qatar" then "Qatar Airways Privilege Club"
  else if scraperName = "emirates" then "Emirates Skywards"
  else scraperName

/-- `getDirectBalance`: sum over the balances mapping to the program. -/
def getDirectBalance (program : String) (balances : List AwardWalletBalance) : Int :=
  (((balances.filter (fun b => getScraperName b.programName == program)).map
    (fun b => b.balance)).sum)

/-- `getBalanceForProgram`: sum over balances whose name contains one of
the credit-card program's name variations. -/
def getBalanceForProgram (program : String) (balances : List AwardWalletBalance) : Int :=
  let programVariations := getCreditCardVariations program
  (((balances.filter (fun b => programVariations.any (fun variation =>
    strIncludes (lowerStr b.programName) (lowerStr variation)))).map
    (fun b => b.balance)).sum)

/-- The `for (const [creditProgram, partners] of Object.entries(...))`
loop of `calculateTransfersToProgram`.  `Math.floor(creditBalance / ratio)`
coincides with `Int` division here since the guard gives
`creditBalance > 0` and every ratio in the table is positive. -/
def calcTransfersGo (targetProgram : String) (balances : List AwardWalletBalance) :
    List (String × List TransferPartner) → List TransferOption
  | [] => []
  | (creditProgram, partners) :: rest =>
    let creditBalance := getBalanceForProgram creditProgram balances
    if creditBalance ≤ 0 then calcTransfersGo targetProgram balances rest
    else
      match partners.find? (fun p => p.partnerProgram == targetProgram) with
      | none => calcTransfersGo targetProgram balances rest
      | some partner =>
        let maxTransferable := creditBalance / partner.ratio * partner.ratio
        if maxTransferable ≥ partner.minimumTransfer then
          ⟨creditProgram, targetProgram, maxTransferable, partner.ratio,
           maxTransferable / partner.ratio, partner.transferTime⟩
            :: calcTransfersGo targetProgram balances rest
        else calcTransfersGo targetProgram balances rest

/-- `calculateTransfersToProgram`. -/
def calculateTransfersToProgram (targetProgram : String)
    (balances : List AwardWalletBalance) : List TransferOption :=
  calcTransfersGo targetProgram balances TRANSFER_PROGRAMS

/-- `Set.add` in insertion order. -/
def insertUnique (l : List String) (x : String) : List String :=
  if x ∈ l then l else l ++ [x]

/-- The `allPrograms` set of `calculateTransferOptions`: airline programs
with direct balances first, then every transfer partner program. -/
def allProgramsOf (balances : List AwardWalletBalance) : List String :=
  let direct := balances.foldl (fun acc b =>
    if isAirlineProgram b.programName then insertUnique acc (getScraperName b.programName)
    else acc) []
  TRANSFER_PROGRAMS.foldl (fun acc pr =>
    pr.2.foldl (fun acc2 p => insertUnique acc2 p.partnerProgram) acc) direct

/-- The calculation pushed for one airline program: the transferable
balance is the reduce of `resultingMiles` over the transfer options,
seeded with the direct balance. -/
def mkCalculation (balances : List AwardWalletBalance) (program : String) :
    TransferCalculation :=
  let directBalance := getDirectBalance program balances
  let transferOptions := calculateTransfersToProgram program balances
  let transferableBalance :=
    transferOptions.foldl (fun sum option => sum + option.resultingMiles) directBalance
  ⟨program, getProgramDisplayName program, directBalance, transferableBalance,
   transferOptions⟩

/-- `calculateTransferOptions`: one calculation per program, sorted by
transferable balance descending.  (The source also builds a
`balancesByProgram` map that is never read afterwards; it has no
observable effect and is not embedded.) -/
def calculateTransferOptions (balances : List AwardWalletBalance) :
    List TransferCalculation :=
  ((allProgramsOf balances).map (mkCalculation balances)).mergeSort
    (fun a b => decide (b.transferableBalance ≤ a.transferableBalance))

/-! ## Session orchestrator model

The arkalis engine (`runArkalis` and its attempt/retry loop) is not
vendored in this repository; the scrapers and the gateway scanner only
call it.  The model below follows the documented contract: up to
`maxAttempts` serial attempts, a fresh BrowserSession per attempt, the
session torn down before returning or retrying on every path, retry on
retryable failures and timeouts, first success or warn short-circuits,
and the last error surfaced once attempts are exhausted. -/

/-- Modelled from the spec: the outcome of running one plugin body under
one BrowserSession — success with records, an explicit `warn` (a
first-class "no results" outcome), a thrown error that is or is not
retryable, or the per-attempt hard timeout. -/
inductive AttemptOutcome (ρ : Type) where
  | success (result : List ρ)
  | warn (message : String)
  | failure (message : String) (retryable : Bool)
  | timeout
deriving Repr, DecidableEq

/-- Counters for BrowserSession lifecycle events across one orchestrator
run. -/
structure OrchestratorTrace where
  sessionsCreated : Nat
  sessionsTornDown : Nat
deriving Repr, DecidableEq

/-- Modelled from the spec: the attempt loop of the session orchestrator.
`remaining` counts the attempts still allowed, `idx` numbers the current
attempt starting at 1.  Each iteration creates one BrowserSession, runs
the plugin body, tears the session down regardless of outcome, and then
either returns, or retries when the failure is retryable and attempts
remain. -/
def runAttemptLoop {ρ : Type} (plugin : Nat → AttemptOutcome ρ) :
    Nat → Nat → OrchestratorTrace → OrchestratorTrace × Except String (List ρ)
  | 0, _, trace => (trace, .error "no attempts configured")
  | remaining + 1, idx, trace =>
    let trace1 : OrchestratorTrace :=
      ⟨trace.sessionsCreated + 1, trace.sessionsTornDown⟩
    let outcome := plugin idx
    let trace2 : OrchestratorTrace :=
      ⟨trace1.sessionsCreated, trace1.sessionsTornDown + 1⟩
    match outcome with
    | .success r => (trace2, .ok r)
    | .warn _ => (trace2, .ok [])
    | .failure message retryable =>
      if retryable ∧ 0 < remaining then runAttemptLoop plugin remaining (idx + 1) trace2
      else (trace2, .error message)
    | .timeout =>
      if 0 < remaining then runAttemptLoop plugin remaining (idx + 1) trace2
      else (trace2, .error "timeout reached")

/-- Modelled from the spec: one orchestrator run with `maxAttempts`
attempts, returning the session-lifecycle trace and the surfaced result. -/
def runArkalisModel {ρ : Type} (plugin : Nat → AttemptOutcome ρ)
    (maxAttempts : Nat) : OrchestratorTrace × Except String (List ρ) :=
  runAttemptLoop plugin maxAttempts 1 ⟨0, 0⟩

/-! ## Theorems -/

/-- Claim C5, counterexample: the exported metas do not contain all three
fields of the claimed `{name, blockUrls, defaultTimeout}` shape — none of
the three scrapers' `meta` object literals sets the (optional) default
timeout field; each sets only `name` and `blockUrls`. -/
theorem c5_counterexample :
    unitedMeta.defaultTimeoutMs = none ∧ aaMeta.defaultTimeoutMs = none
    ∧ alaskaMeta.defaultTimeoutMs = none := by
  decide

/-- Claim C5 (amended): every scraper module exports a static `meta` with
a `name` and a `blockUrls` pattern list, but none of them sets the
default timeout field (it is left to the engine default). -/
theorem c5_metadata_fields :
    (unitedMeta.name = "united" ∧ unitedMeta.blockUrls ≠ []
      ∧ unitedMeta.defaultTimeoutMs = none)
    ∧ (aaMeta.name = "aa" ∧ aaMeta.blockUrls ≠ []
      ∧ aaMeta.defaultTimeoutMs = none)
    ∧ (alaskaMeta.name = "alaska" ∧ alaskaMeta.blockUrls ≠ []
      ∧ alaskaMeta.defaultTimeoutMs = none) := by
  decide

/-- Claim C6: the aa scraper's `blockUrls` lists `"cludo.com"` twice
(indices 0 and 3), so it is not an ordered set as the specification
requires; the united and alaska lists are duplicate-free. -/
theorem c6_duplicate_blockurl :
    aaMeta.blockUrls.count "cludo.com" = 2 ∧ ¬ aaMeta.blockUrls.Nodup
    ∧ unitedMeta.blockUrls.Nodup ∧ alaskaMeta.blockUrls.Nodup := by
  decide

/-- Claim C7, counterexample: the url-type condition aa passes to
`waitFor` carries its glob in a field named `url` (not `pattern`) and
requests fail-fast status checking through `onlyStatusCode` and
`othersThrow` (not `requiredStatus`/`onErrorStatusFail`). -/
theorem c7_counterexample :
    aaSuccessCondFields ∈ scraperUrlWaitConditions
    ∧ aaSuccessCondFields.lookup "pattern" = none
    ∧ aaSuccessCondFields.lookup "requiredStatus" = none
    ∧ aaSuccessCondFields.lookup "onErrorStatusFail" = none
    ∧ aaSuccessCondFields.lookup "url"
        = some (.str "https://www.aa.com/booking/*/find-flights*")
    ∧ aaSuccessCondFields.lookup "onlyStatusCode" = some (.num 200)
    ∧ aaSuccessCondFields.lookup "othersThrow" = some (.bool true)
    ∧ urlCondSpecForm aaSuccessCondFields = false := by
  decide

/-- Claim C7 (amended): every url-type WaitCondition the scrapers pass to
`waitFor` has the form `{type: "url", url, onlyStatusCode?, othersThrow?}`:
the URL glob is carried in a field named `url`, and fail-fast status
checking is requested via `onlyStatusCode` and `othersThrow`. -/
theorem c7_url_conditions_form :
    urlCondSourceForm unitedLoadedCondFields = true
    ∧ urlCondSourceForm aaSuccessCondFields = true
    ∧ urlCondSourceForm alaskaLoadedCondFields = true
    ∧ scraperUrlWaitConditions.all urlCondSourceForm = true := by
  decide

/-- Claim C2: whenever the html-type "anti-botting" condition wins the
`waitFor` race in united's `runScraper`, the scraper throws (the
`"anti-botting"` detection error) and never returns a flight-record
list. -/
theorem c2_antibotting_throws (env : UnitedScrapeEnv) (query : AwardWizQuery)
    (h : env.pageResultName = "anti-botting") :
    unitedRunScraper env query = .error "anti-botting"
    ∧ ∀ records, unitedRunScraper env query ≠ .ok records := by
  have heq : unitedRunScraper env query = .error "anti-botting" := by
    unfold unitedRunScraper
    rw [if_pos h]
  refine ⟨heq, fun records hcon => ?_⟩
  rw [heq] at hcon
  exact Except.noConfusion hcon

/-- Claim C2, witness: a concrete environment whose `waitFor` race is won
by "anti-botting". -/
theorem c2_witness :
    unitedRunScraper ⟨"anti-botting", "", "", .error "unparsed"⟩
      ⟨"LAX", "JFK", "2026-04-28"⟩ = .error "anti-botting" :=
  (c2_antibotting_throws ⟨"anti-botting", "", "", .error "unparsed"⟩
    ⟨"LAX", "JFK", "2026-04-28"⟩ rfl).1

/-- Claim C3: when the parsed Alaska search response has no `slices`
field, the alaska scraper returns the value of `warn(...)` — an empty
record set, not an error. -/
theorem c3_no_slices_warn (env : AlaskaScrapeEnv) (query : AwardWizQuery)
    (resp : AlaskaResponse)
    (h1 : ¬ (env.responseText = "" ∨ strStartsWith env.responseText "<!" = true))
    (h2 : env.parsedResponse = .ok resp) (h3 : resp.slices = none) :
    alaskaRunScraper env query = .ok (arkalisWarn "No scheduled flights between cities")
    ∧ alaskaRunScraper env query = .ok [] := by
  have heq : alaskaRunScraper env query = .ok [] := by
    unfold alaskaRunScraper
    rw [if_neg h1, h2]
    simp only [bind, Except.bind, h3, arkalisWarn]
  exact ⟨heq, heq⟩

/-- Claim C3, witness: a concrete parsed response without `slices`. -/
theorem c3_witness :
    alaskaRunScraper ⟨"\x7b\x7d", .ok ⟨none⟩⟩ ⟨"LAX", "JFK", "2026-04-28"⟩ = .ok [] :=
  (c3_no_slices_warn ⟨"\x7b\x7d", .ok ⟨none⟩⟩ ⟨"LAX", "JFK", "2026-04-28"⟩ ⟨none⟩
    (by decide) rfl rfl).2

/-- One-step unfolding of the attempt loop on a positive attempt budget. -/
theorem runAttemptLoop_succ {ρ : Type} (plugin : Nat → AttemptOutcome ρ)
    (n idx : Nat) (trace : OrchestratorTrace) :
    runAttemptLoop plugin (n + 1) idx trace =
      match plugin idx with
      | .success r => (⟨trace.sessionsCreated + 1, trace.sessionsTornDown + 1⟩, .ok r)
      | .warn _ => (⟨trace.sessionsCreated + 1, trace.sessionsTornDown + 1⟩, .ok [])
      | .failure message retryable =>
        if retryable ∧ 0 < n then
          runAttemptLoop plugin n (idx + 1)
            ⟨trace.sessionsCreated + 1, trace.sessionsTornDown + 1⟩
        else (⟨trace.sessionsCreated + 1, trace.sessionsTornDown + 1⟩, .error message)
      | .timeout =>
        if 0 < n then
          runAttemptLoop plugin n (idx + 1)
            ⟨trace.sessionsCreated + 1, trace.sessionsTornDown + 1⟩
        else (⟨trace.sessionsCreated + 1, trace.sessionsTornDown + 1⟩,
          .error "timeout reached") := rfl

/-- The attempt loop advances the created and torn-down counters in
lock-step: whatever the plugin outcomes, some `k ≤ remaining` attempts
run, each creating exactly one session and tearing exactly one down. -/
theorem runAttemptLoop_trace {ρ : Type} (plugin : Nat → AttemptOutcome ρ) :
    ∀ (remaining idx : Nat) (trace : OrchestratorTrace),
      ∃ k, k ≤ remaining ∧
        (runAttemptLoop plugin remaining idx trace).1 =
          ⟨trace.sessionsCreated + k, trace.sessionsTornDown + k⟩ := by
  intro remaining
  induction remaining with
  | zero =>
    intro idx trace
    exact ⟨0, Nat.le_refl 0, rfl⟩
  | succ n ih =>
    intro idx trace
    rw [runAttemptLoop_succ]
    cases hplug : plugin idx with
    | success r => exact ⟨1, by omega, rfl⟩
    | warn m => exact ⟨1, by omega, rfl⟩
    | failure m retryable =>
      dsimp only
      by_cases hc : retryable = true ∧ 0 < n
      · rw [if_pos hc]
        obtain ⟨k, hk, htr⟩ := ih (idx + 1)
          ⟨trace.sessionsCreated + 1, trace.sessionsTornDown + 1⟩
        refine ⟨k + 1, by omega, ?_⟩
        rw [htr]
        simp only [OrchestratorTrace.mk.injEq]
        omega
      · rw [if_neg hc]
        exact ⟨1, by omega, rfl⟩
    | timeout =>
      dsimp only
      by_cases hc : 0 < n
      · rw [if_pos hc]
        obtain ⟨k, hk, htr⟩ := ih (idx + 1)
          ⟨trace.sessionsCreated + 1, trace.sessionsTornDown + 1⟩
        refine ⟨k + 1, by omega, ?_⟩
        rw [htr]
        simp only [OrchestratorTrace.mk.injEq]
        omega
      · rw [if_neg hc]
        exact ⟨1, by omega, rfl⟩

/-- Under a plugin that always throws a retryable error, the attempt loop
consumes every remaining attempt and surfaces the last attempt's error. -/
theorem runAttemptLoop_allfail {ρ : Type} (plugin : Nat → AttemptOutcome ρ)
    (e : Nat → String) (hfail : ∀ i, plugin i = .failure (e i) true) :
    ∀ (n idx : Nat) (trace : OrchestratorTrace),
      runAttemptLoop plugin (n + 1) idx trace =
        (⟨trace.sessionsCreated + (n + 1), trace.sessionsTornDown + (n + 1)⟩,
         .error (e (idx + n))) := by
  intro n
  induction n with
  | zero =>
    intro idx trace
    rw [runAttemptLoop_succ, hfail idx]
    simp only [eq_self_iff_true, true_and]
    rw [if_neg (by omega : ¬ (0 : Nat) < 0)]
    simp
  | succ m ih =>
    intro idx trace
    rw [runAttemptLoop_succ, hfail idx]
    simp only [eq_self_iff_true, true_and]
    rw [if_pos (by omega : (0 : Nat) < m + 1)]
    rw [ih (idx + 1) ⟨trace.sessionsCreated + 1, trace.sessionsTornDown + 1⟩]
    simp only [Prod.mk.injEq, OrchestratorTrace.mk.injEq]
    refine ⟨⟨by omega, by omega⟩, ?_⟩
    have harg : idx + 1 + m = idx + (m + 1) := by omega
    rw [harg]

/-- Claim C1: in the orchestrator model, every BrowserSession is torn
down exactly once per attempt on every exit path — the created and
torn-down counts always agree — and with `maxAttempts = N` and a plugin
that always throws a retryable error, exactly `N` sessions are created
and torn down and the `N`-th attempt's error is the one surfaced. -/
theorem c1_session_teardown {ρ : Type} (plugin : Nat → AttemptOutcome ρ)
    (maxAttempts : Nat) (e : Nat → String) (hN : 1 ≤ maxAttempts)
    (hfail : ∀ i, plugin i = .failure (e i) true) :
    ((runArkalisModel plugin maxAttempts).1.sessionsCreated = maxAttempts
      ∧ (runArkalisModel plugin maxAttempts).1.sessionsTornDown = maxAttempts
      ∧ (runArkalisModel plugin maxAttempts).2 = .error (e maxAttempts))
    ∧ ∀ {σ : Type} (q : Nat → AttemptOutcome σ) (M : Nat),
        (runArkalisModel q M).1.sessionsCreated
          = (runArkalisModel q M).1.sessionsTornDown := by
  constructor
  · obtain ⟨n, rfl⟩ : ∃ n, maxAttempts = n + 1 := ⟨maxAttempts - 1, by omega⟩
    have h := runAttemptLoop_allfail plugin e hfail n 1 ⟨0, 0⟩
    unfold runArkalisModel
    rw [h]
    refine ⟨by simp, by simp, ?_⟩
    have harg : 1 + n = n + 1 := by omega
    rw [harg]
  · intro σ q M
    obtain ⟨k, _, htr⟩ := runAttemptLoop_trace q M 1 ⟨0, 0⟩
    unfold runArkalisModel
    rw [htr]

/-- Claim C1, witness: three attempts of an always-failing plugin give
three creations, three teardowns, and the third error surfaced. -/
theorem c1_witness :
    (runArkalisModel (ρ := Nat) (fun _ => .failure "always fails" true) 3).1.sessionsCreated = 3
    ∧ (runArkalisModel (ρ := Nat)
        (fun _ => .failure "always fails" true) 3).1.sessionsTornDown = 3
    ∧ (runArkalisModel (ρ := Nat)
        (fun _ => .failure "always fails" true) 3).2 = .error "always fails" :=
  (c1_session_teardown (ρ := Nat) (fun _ => .failure "always fails" true) 3
    (fun _ => "always fails") (by omega) (fun _ => rfl)).1

/-- Every balance entry collected from the raw accounts has a strictly
positive balance: the loop's guard requires `account.balance > 0`. -/
theorem awCollectBalances_pos (nowIso : String) :
    ∀ accounts, ∀ b ∈ awCollectBalances nowIso accounts, 0 < b.balance := by
  intro accounts
  induction accounts with
  | nil =>
    intro b hb
    simp [awCollectBalances] at hb
  | cons account rest ih =>
    intro b hb
    unfold awCollectBalances at hb
    by_cases hk : accountKept account.balance = true
    · rw [if_pos hk] at hb
      cases hb with
      | head =>
        cases hbal : account.balance with
        | none => rw [accountKept.eq_def, hbal] at hk; cases hk
        | some v =>
          rw [accountKept.eq_def, hbal] at hk
          simp only [Bool.and_eq_true, bne_iff_ne, ne_eq, decide_eq_true_eq] at hk
          simp only [awBalanceOfAccount, hbal, Option.getD_some]
          exact hk.2
      | tail _ h => exact ih b h
    · rw [if_neg hk] at hb
      exact ih b hb

/-- Claim C9: `fetchAwardWalletBalances` is total over its error cases —
a missing credentials file, a rejected fetch, a non-OK HTTP status and a
body that fails to parse all yield a returned value (no exception) of the
shape `{success: false, balances: [], error: message}` — and on success
every returned balance entry has a strictly positive balance. -/
theorem c9_fetch_balances_total
    (c : AwardWalletCredentials) (lr : Except String AwardWalletCredentials)
    (f : FetchOutcome) (nowIso e msg : String) (status : Nat) (statusText : String)
    (body : Except String RawAwardWalletData) (hbody : body = .error e) :
    (fetchAwardWalletBalances none (.error e) f nowIso = ⟨false, [], some e⟩)
    ∧ (fetchAwardWalletBalances (some c) lr (.networkError msg) nowIso
        = ⟨false, [], some msg⟩)
    ∧ (fetchAwardWalletBalances (some c) lr (.response false status statusText body) nowIso
        = ⟨false, [], some ("AwardWallet API error: " ++ toString status ++ " "
            ++ statusText)⟩)
    ∧ (fetchAwardWalletBalances (some c) lr (.response true status statusText body) nowIso
        = ⟨false, [], some e⟩)
    ∧ (∀ (credentials : Option AwardWalletCredentials)
         (loadResult : Except String AwardWalletCredentials)
         (fetchResult : FetchOutcome) (now : String),
        ((fetchAwardWalletBalances credentials loadResult fetchResult now).success = false →
          (fetchAwardWalletBalances credentials loadResult fetchResult now).balances = []
          ∧ (fetchAwardWalletBalances credentials loadResult fetchResult now).error.isSome)
        ∧ ((fetchAwardWalletBalances credentials loadResult fetchResult now).success = true →
          (fetchAwardWalletBalances credentials loadResult fetchResult now).error = none
          ∧ ∀ b ∈ (fetchAwardWalletBalances credentials loadResult fetchResult now).balances,
              0 < b.balance)) := by
  subst hbody
  refine ⟨rfl, rfl, rfl, rfl, ?_⟩
  intro credentials loadResult fetchResult now
  have hshape : ∀ (failMsg : String) (r : AwardWalletResponse),
      r = ⟨false, [], some failMsg⟩ →
      (r.success = false → r.balances = [] ∧ r.error.isSome)
      ∧ (r.success = true → r.error = none ∧ ∀ b ∈ r.balances, 0 < b.balance) := by
    intro failMsg r hr
    subst hr
    exact ⟨fun _ => ⟨rfl, rfl⟩, fun hs => absurd hs Bool.false_ne_true⟩
  have hsuccess : ∀ (data : RawAwardWalletData) (r : AwardWalletResponse),
      r = ⟨true, (awCollectBalances now (data.accounts.getD [])).mergeSort
            (fun a b => decide (b.balance ≤ a.balance)), none⟩ →
      (r.success = false → r.balances = [] ∧ r.error.isSome)
      ∧ (r.success = true → r.error = none ∧ ∀ b ∈ r.balances, 0 < b.balance) := by
    intro data r hr
    subst hr
    refine ⟨fun hs => absurd hs.symm Bool.false_ne_true, fun _ => ⟨rfl, fun b hb => ?_⟩⟩
    exact awCollectBalances_pos now (data.accounts.getD []) b (List.mem_mergeSort.1 hb)
  match credentials, loadResult with
  | none, .error e2 => exact hshape e2 _ rfl
  | none, .ok cr =>
    match fetchResult with
    | .networkError m2 => exact hshape m2 _ rfl
    | .response true st stx (.ok data) => exact hsuccess data _ rfl
    | .response true st stx (.error e2) => exact hshape e2 _ rfl
    | .response false st stx b2 => exact hshape _ _ rfl
  | some c2, lr2 =>
    match fetchResult with
    | .networkError m2 => exact hshape m2 _ rfl
    | .response true st stx (.ok data) => exact hsuccess data _ rfl
    | .response true st stx (.error e2) => exact hshape e2 _ rfl
    | .response false st stx b2 => exact hshape _ _ rfl

/-- Claim C9, witness: a concrete failing load and a concrete successful
fetch with one positive-balance account. -/
theorem c9_witness :
    fetchAwardWalletBalances none (.error "AwardWallet credentials not found")
      (.networkError "offline") "2026-02-13T00:00:00Z"
      = ⟨false, [], some "AwardWallet credentials not found"⟩ :=
  (c9_fetch_balances_total ⟨"key", "422003"⟩ (.ok ⟨"key", "422003"⟩)
    (.networkError "offline") "2026-02-13T00:00:00Z"
    "AwardWallet credentials not found" "offline" 500 "Internal Server Error"
    (.error "AwardWallet credentials not found") rfl).1

/-- The seeded fold of `resultingMiles` equals the seed plus the sum. -/
theorem foldl_add_resultingMiles (opts : List TransferOption) (init : Int) :
    opts.foldl (fun sum option => sum + option.resultingMiles) init
      = init + (opts.map TransferOption.resultingMiles).sum := by
  induction opts generalizing init with
  | nil => simp
  | cons o rest ih =>
    simp only [List.foldl_cons, List.map_cons, List.sum_cons, ih]
    ring

/-- Claim C10: every calculation returned by `calculateTransferOptions`
has `transferableBalance = directBalance + sum of resultingMiles over its
transferOptions`, and the returned list is sorted in non-increasing order
of `transferableBalance`. -/
theorem c10_transfer_calculations (balances : List AwardWalletBalance) :
    (∀ c ∈ calculateTransferOptions balances,
       c.transferableBalance
         = c.directBalance + (c.transferOptions.map TransferOption.resultingMiles).sum)
    ∧ (calculateTransferOptions balances).Pairwise
        (fun a b => b.transferableBalance ≤ a.transferableBalance) := by
  constructor
  · intro c hc
    have hmem : c ∈ (allProgramsOf balances).map (mkCalculation balances) :=
      List.mem_mergeSort.1 hc
    obtain ⟨program, _, rfl⟩ := List.mem_map.1 hmem
    simp only [mkCalculation, foldl_add_resultingMiles]
  · have hp := @List.sorted_mergeSort TransferCalculation
      (fun a b => decide (b.transferableBalance ≤ a.transferableBalance))
      (by
        intro a b c hab hbc
        simp only [decide_eq_true_eq] at hab hbc ⊢
        exact le_trans hbc hab)
      (by
        intro a b
        simp only [Bool.or_eq_true, decide_eq_true_eq]
        exact le_total b.transferableBalance a.transferableBalance)
      ((allProgramsOf balances).map (mkCalculation balances))
    refine List.Pairwise.imp ?_ hp
    intro a b h
    simpa using h

/-- Claim C10, witness: a single Bilt Rewards balance of 5000 points. -/
def c10DemoBalances : List AwardWalletBalance :=
  [⟨"1", "Bilt Rewards", "points", 5000, none, "2026-02-13", true⟩]

/-- Claim C10, witness: the united calculation for the demo balances has
the claimed decomposition, and the returned list is sorted. -/
theorem c10_witness :
    ((mkCalculation c10DemoBalances "united").transferableBalance
      = (mkCalculation c10DemoBalances "united").directBalance
        + ((mkCalculation c10DemoBalances "united").transferOptions.map
            TransferOption.resultingMiles).sum)
    ∧ (calculateTransferOptions c10DemoBalances).Pairwise
        (fun a b => b.transferableBalance ≤ a.transferableBalance) := by
  have h := c10_transfer_calculations c10DemoBalances
  have hmem : mkCalculation c10DemoBalances "united"
      ∈ (allProgramsOf c10DemoBalances).map (mkCalculation c10DemoBalances) := by
    have hprog : "united" ∈ allProgramsOf c10DemoBalances := by decide
    exact List.mem_map_of_mem (mkCalculation c10DemoBalances) hprog
  exact ⟨h.1 (mkCalculation c10DemoBalances "united") (List.mem_mergeSort.2 hmem), h.2⟩

/-- Invariant of aa's lowest-fare fold: the accumulator has pairwise
distinct cabins, every kept fare is at most every processed fare of the
same cabin, and every processed cabin is represented. -/
def FaresInv (processed acc : List FlightFare) : Prop :=
  (acc.map FlightFare.cabin).Nodup
  ∧ (∀ g ∈ acc, ∀ f ∈ processed, f.cabin = g.cabin → g.miles ≤ f.miles)
  ∧ (∀ f ∈ processed, ∃ g ∈ acc, g.cabin = f.cabin)

/-- The invariant holds initially. -/
theorem faresInv_nil : FaresInv [] [] := by
  refine ⟨List.nodup_nil, ?_, ?_⟩
  · intro g hg
    cases hg
  · intro f hf
    cases hf

/-- The replace branch of `addLowestFare` preserves the invariant, given
that the incoming fare is minimal among the processed fares of its
cabin. -/
theorem faresInv_replace (processed acc : List FlightFare) (fare : FlightFare)
    (h : FaresInv processed acc)
    (hmin : ∀ f ∈ processed, f.cabin = fare.cabin → fare.miles ≤ f.miles) :
    FaresInv (processed ++ [fare])
      (acc.filter (fun check => check.cabin != fare.cabin) ++ [fare]) := by
  obtain ⟨hnd, hbound, hrep⟩ := h
  have hfilter_mem : ∀ g ∈ acc.filter (fun check => check.cabin != fare.cabin),
      g ∈ acc ∧ g.cabin ≠ fare.cabin := by
    intro g hg
    have := List.mem_filter.1 hg
    exact ⟨this.1, by simpa using this.2⟩
  refine ⟨?_, ?_, ?_⟩
  · rw [List.map_append]
    rw [List.nodup_append]
    refine ⟨?_, List.nodup_singleton _, ?_⟩
    · exact hnd.sublist ((List.filter_sublist acc).map FlightFare.cabin)
    · intro a ha hb
      have hb2 : a = fare.cabin := by simpa using hb
      obtain ⟨g, hg, rfl⟩ := List.mem_map.1 ha
      exact (hfilter_mem g hg).2 hb2
  · intro g hg f hf hcab
    rcases List.mem_append.1 hg with hg2 | hg2
    · obtain ⟨hgacc, hgne⟩ := hfilter_mem g hg2
      rcases List.mem_append.1 hf with hf2 | hf2
      · exact hbound g hgacc f hf2 hcab
      · have : f = fare := by simpa using hf2
        subst this
        exact absurd hcab.symm hgne
    · have hgf : g = fare := by simpa using hg2
      rcases List.mem_append.1 hf with hf2 | hf2
      · rw [hgf] at hcab
        rw [hgf]
        exact hmin f hf2 hcab
      · have hff : f = fare := by simpa using hf2
        rw [hgf, hff]
  · intro f hf
    rcases List.mem_append.1 hf with hf2 | hf2
    · obtain ⟨g, hg, hgc⟩ := hrep f hf2
      by_cases hgf : g.cabin = fare.cabin
      · refine ⟨fare, ?_, ?_⟩
        · exact List.mem_append.2 (Or.inr (List.mem_singleton.2 rfl))
        · rw [← hgf, hgc]
      · refine ⟨g, ?_, hgc⟩
        refine List.mem_append.2 (Or.inl ?_)
        refine List.mem_filter.2 ⟨hg, ?_⟩
        simpa using hgf
    · have hff : f = fare := by simpa using hf2
      exact ⟨fare, List.mem_append.2 (Or.inr (List.mem_singleton.2 rfl)), by rw [hff]⟩

/-- One step of the fold preserves the invariant. -/
theorem faresInv_step (processed acc : List FlightFare) (fare : FlightFare)
    (h : FaresInv processed acc) :
    FaresInv (processed ++ [fare]) (addLowestFare acc fare) := by
  obtain ⟨hnd, hbound, hrep⟩ := h
  unfold addLowestFare
  cases hfind : acc.find? (fun check => check.cabin == fare.cabin) with
  | none =>
    have hnone : ∀ g ∈ acc, g.cabin ≠ fare.cabin := by
      intro g hg
      have := List.find?_eq_none.1 hfind g hg
      simpa using this
    refine faresInv_replace processed acc fare ⟨hnd, hbound, hrep⟩ ?_
    intro f hf hfc
    obtain ⟨g, hg, hgc⟩ := hrep f hf
    exact absurd (hgc.trans hfc) (hnone g hg)
  | some existing =>
    have hex_mem : existing ∈ acc := List.mem_of_find?_eq_some hfind
    have hex_cab : existing.cabin = fare.cabin := by
      have := List.find?_some hfind
      simpa using this
    dsimp only
    by_cases hlt : existing.miles < fare.miles
    · rw [if_pos hlt]
      refine ⟨hnd, ?_, ?_⟩
      · intro g hg f hf hcab
        rcases List.mem_append.1 hf with hf2 | hf2
        · exact hbound g hg f hf2 hcab
        · have : f = fare := by simpa using hf2
          subst this
          have hgc : g.cabin = existing.cabin := by rw [hex_cab, ← hcab]
          have hge : g = existing :=
            List.inj_on_of_nodup_map hnd hg hex_mem hgc
          subst hge
          exact le_of_lt hlt
      · intro f hf
        rcases List.mem_append.1 hf with hf2 | hf2
        · exact hrep f hf2
        · have : f = fare := by simpa using hf2
          subst this
          exact ⟨existing, hex_mem, hex_cab⟩
    · rw [if_neg hlt]
      refine faresInv_replace processed acc fare ⟨hnd, hbound, hrep⟩ ?_
      intro f hf hfc
      have h1 : fare.miles ≤ existing.miles := Nat.le_of_not_lt hlt
      have h2 : existing.miles ≤ f.miles := by
        refine hbound existing hex_mem f hf ?_
        rw [hfc, hex_cab]
      exact le_trans h1 h2

/-- The invariant transported along the whole fold. -/
theorem faresInv_foldl : ∀ (l processed acc : List FlightFare),
    FaresInv processed acc → FaresInv (processed ++ l) (l.foldl addLowestFare acc)
  | [], processed, acc, h => by simpa using h
  | fare :: rest, processed, acc, h => by
    have h1 := faresInv_step processed acc fare h
    have h2 := faresInv_foldl rest (processed ++ [fare]) (addLowestFare acc fare) h1
    simpa using h2

/-- `lowestFares` keeps at most one fare per cabin, and each kept fare is
miles-minimal among the input fares of its cabin. -/
theorem lowestFares_spec (fares : List FlightFare) :
    ((lowestFares fares).map FlightFare.cabin).Nodup
    ∧ ∀ g ∈ lowestFares fares, ∀ f ∈ fares, f.cabin = g.cabin → g.miles ≤ f.miles := by
  have h := faresInv_foldl fares [] [] faresInv_nil
  simp only [List.nil_append] at h
  exact ⟨h.1, h.2.1⟩

/-- When the fare mapping succeeds, every pricing product of the input
list contributes a fare carrying its cabin and award points. -/
theorem aaBuildFares_mem (seg : AASegment) :
    ∀ (l : List AAPricingDetail) (fs : List FlightFare),
      aaBuildFares seg l = .ok fs →
      ∀ p ∈ l, ∀ c, aaCabinOf seg p = .ok c →
        ∃ fare ∈ fs, fare.cabin = c ∧ fare.miles = p.perPassengerAwardPoints := by
  intro l
  induction l with
  | nil =>
    intro fs h p hp
    cases hp
  | cons q rest ih =>
    intro fs h p hp c hc
    cases hq : aaFareOf seg q with
    | error e =>
      rw [aaBuildFares, hq] at h
      cases h
    | ok fareq =>
      cases hr : aaBuildFares seg rest with
      | error e =>
        rw [aaBuildFares, hq, hr] at h
        cases h
      | ok rs =>
        rw [aaBuildFares, hq, hr] at h
        have h2 : (Except.ok (fareq :: rs) : Except String (List FlightFare)) = .ok fs := h
        injection h2 with h3
        subst h3
        rcases List.mem_cons.1 hp with heq | hp
        · subst heq
          refine ⟨fareq, List.mem_cons_self _ _, ?_⟩
          rw [aaFareOf, hc] at hq
          have hq2 : (Except.ok
              (⟨c, p.perPassengerAwardPoints, p.perPassengerTaxesAndFees.amount,
                p.perPassengerTaxesAndFees.currency, aaBookingClass p.extendedFareCode,
                "aa", some (aaAwardCabinByFareCode
                  (aaFareCodeHead p.extendedFareCode)).isSome⟩ : FlightFare)
              : Except String FlightFare) = .ok fareq := hq
          injection hq2 with hq3
          rw [← hq3]
          exact ⟨rfl, rfl⟩

        · obtain ⟨fare, hfmem, hfprops⟩ := ih rs hr p hp c hc
          exact ⟨fare, List.mem_cons_of_mem _ hfmem, hfprops⟩

/-- A slice record assembled from computed fares carries exactly those
fares, whichever branch built it. -/
theorem aaSliceAssemble_fares (slice : AASlice) (query : AwardWizQuery)
    (segment : AASegment) (restSegs : List AASegment) (leg : AALeg)
    (fares : List FlightFare) (r : FlightWithFares)
    (h : aaSliceAssemble slice query segment restSegs leg fares = some r) :
    r.fares = fares := by
  rw [aaSliceAssemble.eq_def] at h
  dsimp only at h
  split at h
  · cases h
  · split at h
    · injection h with h2
      rw [← h2]
    · injection h with h2
      rw [← h2]

/-- Claim C8: for every slice producing a record, the record has at most
one fare per cabin, and each kept fare is miles-minimal among the slice's
available pricing products that map to the same cabin. -/
theorem c8_lowest_fare_per_cabin (slice : AASlice) (query : AwardWizQuery)
    (r : FlightWithFares) (h : aaSliceResult slice query = .ok (some r)) :
    ((r.fares.map FlightFare.cabin).Nodup)
    ∧ ∀ p ∈ slice.pricingDetail, p.productAvailable = true →
        ∀ seg0, slice.segments.head? = some seg0 →
          ∀ c, aaCabinOf seg0 p = .ok c →
            ∀ g ∈ r.fares, g.cabin = c → g.miles ≤ p.perPassengerAwardPoints := by
  rw [aaSliceResult.eq_def] at h
  split at h
  · cases h
  · rename_i segment restSegs hsegs
    split at h
    · cases h
    · rename_i leg restLegs hlegs
      cases hb : aaBuildFares segment
          (slice.pricingDetail.filter (fun p => p.productAvailable)) with
      | error e =>
        rw [hb] at h
        cases h
      | ok fares0 =>
        rw [hb] at h
        have h2 : (Except.ok (aaSliceAssemble slice query segment restSegs leg
            (lowestFares fares0)) : Except String (Option FlightWithFares))
            = .ok (some r) := h
        injection h2 with h3
        have hfares : r.fares = lowestFares fares0 :=
          aaSliceAssemble_fares slice query segment restSegs leg (lowestFares fares0) r h3
        have hspec := lowestFares_spec fares0
        constructor
        · rw [hfares]
          exact hspec.1
        · intro p hp hav seg0 hseg0 c hc g hg hcabg
          have hseg : seg0 = segment := by
            rw [hsegs] at hseg0
            simpa using hseg0.symm
          have hpfilter : p ∈ slice.pricingDetail.filter
              (fun q => q.productAvailable) :=
            List.mem_filter.2 ⟨hp, by simpa using hav⟩
          obtain ⟨fare, hfmem, hfc, hfm⟩ :=
            aaBuildFares_mem segment _ fares0 hb p hpfilter c (hseg ▸ hc)
          have hle := hspec.2 g (hfares ▸ hg) fare hfmem (by rw [hfc, hcabg])
          rw [← hfm]
          exact hle

/-- Claim C8 witness data: a one-segment LAX→JFK slice. -/
def c8DemoSegment : AASegment :=
  ⟨"2026-04-28T10:00", "2026-04-28T13:00", ⟨"LAX"⟩, ⟨"JFK"⟩, ⟨"AA", "100"⟩,
   [⟨⟨"Boeing 777"⟩, []⟩]⟩

/-- Claim C8 witness data: the cheaper of two BUSINESS products. -/
def c8DemoProduct : AAPricingDetail := ⟨true, none, "BUSINESS", ⟨56, "USD"⟩, 30000⟩

/-- Claim C8 witness data: a slice with two available BUSINESS products
at 50000 and 30000 miles. -/
def c8DemoSlice : AASlice :=
  ⟨[c8DemoSegment], 300,
   [⟨true, none, "BUSINESS", ⟨56, "USD"⟩, 50000⟩, c8DemoProduct]⟩

/-- Claim C8 witness data: the record the slice standardizes to — a
single business fare at the lower 30000 miles. -/
def c8DemoRecord : FlightWithFares :=
  ⟨"2026-04-28 10:00", "2026-04-28 13:00", "LAX", "JFK", "AA 100", 300, "Boeing 777",
   [⟨"business", 30000, 56, "USD", none, "aa", some false⟩], ⟨some false, some false⟩⟩

/-- Claim C8, witness: on the demo slice the record keeps one fare per
cabin and it is miles-minimal for its cabin. -/
theorem c8_witness :
    (aaSliceResult c8DemoSlice ⟨"LAX", "JFK", "2026-04-28"⟩ = .ok (some c8DemoRecord))
    ∧ ((c8DemoRecord.fares.map FlightFare.cabin).Nodup)
    ∧ ∀ g ∈ c8DemoRecord.fares, g.cabin = "business" → g.miles ≤ 30000 := by
  have hres : aaSliceResult c8DemoSlice ⟨"LAX", "JFK", "2026-04-28"⟩
      = .ok (some c8DemoRecord) := rfl
  have h := c8_lowest_fare_per_cabin c8DemoSlice ⟨"LAX", "JFK", "2026-04-28"⟩
    c8DemoRecord hres
  refine ⟨hres, h.1, ?_⟩
  intro g hg hcab
  exact h.2 c8DemoProduct (by decide) rfl c8DemoSegment rfl "business" rfl g hg hcab

/-- If united's product loop completes without throwing, every product it
examined (non-empty price list) had a known cabin description. -/
theorem unitedAddProducts_known :
    ∀ (products : List UnitedProduct) (fares fs : List FlightFare),
      unitedAddProducts fares products = .ok fs →
      ∀ p ∈ products, p.Prices ≠ [] → (unitedCabin p.Description).isSome = true := by
  intro products
  induction products with
  | nil =>
    intro fares fs h p hp
    cases hp
  | cons q rest ih =>
    intro fares fs h p hp hpr
    rw [unitedAddProducts] at h
    split at h
    · rename_i hqp
      rcases List.mem_cons.1 hp with heq | hp2
      · subst heq
        exact absurd hqp hpr
      · exact ih fares fs h p hp2 hpr
    · rename_i price0 pricesRest hqp
      dsimp only at h
      split at h
      · cases h
      · rename_i cabin hqcab
        rcases List.mem_cons.1 hp with heq | hp2
        · subst heq
          rw [hqcab]
          rfl
        · split at h
          · exact ih fares fs h p hp2 hpr
          · exact ih _ fs h p hp2 hpr

/-- If one united flight standardizes without throwing and passed the
origin/destination/date filters, all its priced products had known
cabins. -/
theorem unitedFlightResult_known (query : AwardWizQuery) (trip : UnitedTrip)
    (f : UnitedFlight) (v : Option FlightWithFares)
    (h : unitedFlightResult query trip f = .ok v)
    (h1 : f.Origin = jsOrStr trip.RequestedOrigin trip.Origin)
    (h2 : f.Destination = jsOrStr trip.RequestedDestination trip.Destination)
    (h3 : strTake (f.DepartDateTime ++ ":00") 10 = strTake query.departureDate 10) :
    ∀ p ∈ f.Products, p.Prices ≠ [] → (unitedCabin p.Description).isSome = true := by
  rw [unitedFlightResult.eq_def] at h
  rw [if_neg (by simp [h1])] at h
  rw [if_neg (by simp [h2])] at h
  rw [if_neg (by simp [h3])] at h
  cases hadd : unitedAddProducts [] f.Products with
  | error e =>
    rw [hadd] at h
    cases h
  | ok fs => exact unitedAddProducts_known f.Products [] fs hadd

/-- If united's `standardizeResults` returns, every filtered-in flight's
priced products had known cabins. -/
theorem unitedGo_known :
    ∀ (flights : List UnitedFlight) (query : AwardWizQuery) (trip : UnitedTrip)
      (res : List FlightWithFares),
      unitedGo query trip flights = .ok res →
      ∀ f ∈ flights,
        f.Origin = jsOrStr trip.RequestedOrigin trip.Origin →
        f.Destination = jsOrStr trip.RequestedDestination trip.Destination →
        strTake (f.DepartDateTime ++ ":00") 10 = strTake query.departureDate 10 →
        ∀ p ∈ f.Products, p.Prices ≠ [] → (unitedCabin p.Description).isSome = true := by
  intro flights
  induction flights with
  | nil =>
    intro query trip res h f hf
    cases hf
  | cons f0 rest ih =>
    intro query trip res h f hf h1 h2 h3
    cases h0 : unitedFlightResult query trip f0 with
    | error e =>
      rw [unitedGo, h0] at h
      cases h
    | ok r0 =>
      cases hrest : unitedGo query trip rest with
      | error e =>
        rw [unitedGo, h0, hrest] at h
        cases h
      | ok rs =>
        rcases List.mem_cons.1 hf with heq | hf2
        · subst heq
          exact unitedFlightResult_known query trip f r0 h0 h1 h2 h3
        · exact ih query trip rs hrest f hf2 h1 h2 h3

/-- If aa's fare mapping completes without throwing, every input product's
cabin resolved. -/
theorem aaBuildFares_known (seg : AASegment) :
    ∀ (l : List AAPricingDetail) (fs : List FlightFare),
      aaBuildFares seg l = .ok fs → ∀ p ∈ l, ∃ c, aaCabinOf seg p = .ok c := by
  intro l
  induction l with
  | nil =>
    intro fs h p hp
    cases hp
  | cons q rest ih =>
    intro fs h p hp
    cases hq : aaFareOf seg q with
    | error e =>
      rw [aaBuildFares, hq] at h
      cases h
    | ok fareq =>
      cases hr : aaBuildFares seg rest with
      | error e =>
        rw [aaBuildFares, hq, hr] at h
        cases h
      | ok rs =>
        rcases List.mem_cons.1 hp with heq | hp2
        · subst heq
          cases hc : aaCabinOf seg p with
          | error e =>
            rw [aaFareOf, hc] at hq
            cases hq
          | ok c => exact ⟨c, rfl⟩
        · exact ih rs hr p hp2

/-- If one aa slice standardizes without throwing, every available
pricing product's cabin resolved against the slice's first segment. -/
theorem aaSliceResult_known (s : AASlice) (query : AwardWizQuery)
    (v : Option FlightWithFares) (h : aaSliceResult s query = .ok v) :
    ∀ p ∈ s.pricingDetail, p.productAvailable = true →
      ∀ seg0, s.segments.head? = some seg0 → ∃ c, aaCabinOf seg0 p = .ok c := by
  rw [aaSliceResult.eq_def] at h
  split at h
  · cases h
  · rename_i segment restSegs hsegs
    split at h
    · cases h
    · rename_i leg restLegs hlegs
      cases hb : aaBuildFares segment
          (s.pricingDetail.filter (fun p => p.productAvailable)) with
      | error e =>
        rw [hb] at h
        cases h
      | ok fares0 =>
        intro p hp hav seg0 hseg0
        have hseg : seg0 = segment := by
          rw [hsegs] at hseg0
          simpa using hseg0.symm
        subst hseg
        exact aaBuildFares_known seg0 _ fares0 hb p
          (List.mem_filter.2 ⟨hp, by simpa using hav⟩)

/-- If aa's `standardizeResults` returns, every slice's available
pricing products had resolvable cabins. -/
theorem aaStandardizeResults_known :
    ∀ (slices : List AASlice) (query : AwardWizQuery) (res : List FlightWithFares),
      aaStandardizeResults slices query = .ok res →
      ∀ s ∈ slices, ∀ p ∈ s.pricingDetail, p.productAvailable = true →
        ∀ seg0, s.segments.head? = some seg0 → ∃ c, aaCabinOf seg0 p = .ok c := by
  intro slices
  induction slices with
  | nil =>
    intro query res h s hs
    cases hs
  | cons s0 rest ih =>
    intro query res h s hs
    cases h0 : aaSliceResult s0 query with
    | error e =>
      rw [aaStandardizeResults, h0] at h
      cases h
    | ok r0 =>
      cases hrest : aaStandardizeResults rest query with
      | error e =>
        rw [aaStandardizeResults, h0, hrest] at h
        cases h
      | ok rs =>
        rcases List.mem_cons.1 hs with heq | hs2
        · subst heq
          exact aaSliceResult_known s query r0 h0
        · exact ih query rs hrest s hs2

/-- If alaska's fare loop completes without throwing, every fare it
examined had exactly one booking code, exactly one cabin, and a
whitelisted cabin value. -/
theorem alaskaAddFares_known :
    ∀ (fares : List AlaskaFare) (acc fs : List FlightFare),
      alaskaAddFares acc fares = .ok fs →
      ∀ fare ∈ fares, fare.bookingCodes.length = 1 ∧ fare.cabins.length = 1
        ∧ (alaskaCabin ((fare.cabins.head?).getD "")).isSome = true := by
  intro fares
  induction fares with
  | nil =>
    intro acc fs h fare hf
    cases hf
  | cons q rest ih =>
    intro acc fs h fare hf
    rw [alaskaAddFares] at h
    split at h
    · cases h
    · split at h
      · cases h
      · rename_i hbc hcl
        dsimp only at h
        split at h
        · cases h
        · rename_i cabin hcab
          rcases List.mem_cons.1 hf with heq | hf2
          · subst heq
            refine ⟨by omega, by omega, ?_⟩
            rw [hcab]
            rfl
          · split at h
            · split at h
              · exact ih _ fs h fare hf2
              · exact ih acc fs h fare hf2
            · exact ih _ fs h fare hf2

/-- If one alaska slice standardizes without throwing and is a
single-segment slice matching the query's origin and destination, every
fare of the slice passed the whitelist checks. -/
theorem alaskaSliceResult_known (query : AwardWizQuery) (s : AlaskaSlice)
    (v : Option FlightWithFares) (h : alaskaSliceResult query s = .ok v)
    (seg : AlaskaSegment) (hseg : s.segments = [seg])
    (ho : seg.departureStation = query.origin)
    (hd : seg.arrivalStation = query.destination) :
    ∀ fare ∈ s.fares, fare.bookingCodes.length = 1 ∧ fare.cabins.length = 1
      ∧ (alaskaCabin ((fare.cabins.head?).getD "")).isSome = true := by
  rw [alaskaSliceResult.eq_def, hseg] at h
  rw [if_neg (by simp)] at h
  dsimp only at h
  rw [if_neg (by simp [ho, hd])] at h
  cases ha : alaskaAddFares [] s.fares with
  | error e =>
    rw [ha] at h
    cases h
  | ok fs => exact alaskaAddFares_known s.fares [] fs ha

/-- If alaska's `standardizeResults` returns, every matching
single-segment slice's fares passed the whitelist checks. -/
theorem alaskaGo_known :
    ∀ (slices : List AlaskaSlice) (query : AwardWizQuery) (res : List FlightWithFares),
      alaskaGo query slices = .ok res →
      ∀ s ∈ slices, ∀ seg, s.segments = [seg] →
        seg.departureStation = query.origin → seg.arrivalStation = query.destination →
        ∀ fare ∈ s.fares, fare.bookingCodes.length = 1 ∧ fare.cabins.length = 1
          ∧ (alaskaCabin ((fare.cabins.head?).getD "")).isSome = true := by
  intro slices
  induction slices with
  | nil =>
    intro query res h s hs
    cases hs
  | cons s0 rest ih =>
    intro query res h s hs seg hseg ho hd
    cases h0 : alaskaSliceResult query s0 with
    | error e =>
      rw [alaskaGo, h0] at h
      cases h
    | ok r0 =>
      cases hrest : alaskaGo query rest with
      | error e =>
        rw [alaskaGo, h0, hrest] at h
        cases h
      | ok rs =>
        rcases List.mem_cons.1 hs with heq | hs2
        · subst heq
          exact alaskaSliceResult_known query s r0 h0 seg hseg ho hd
        · exact ih query rs hrest s hs2 seg hseg ho hd

/-- Claim C4 counterexample data: a priced product with an unknown cabin
description. -/
def c4BadProduct : UnitedProduct := ⟨[⟨10000, "miles"⟩], some "X", "Mystery Cabin"⟩

/-- Claim C4 counterexample data: a flight on the wrong date carrying the
unknown-cabin product. -/
def c4Flight : UnitedFlight :=
  ⟨"2026-04-29T10:00", "2026-04-29T13:00", "LAX", "JFK", "UA", "1", 300,
   ⟨"Boeing 777"⟩, [], [c4BadProduct]⟩

/-- Claim C4 counterexample data: the trip containing that flight. -/
def c4Trip : UnitedTrip := ⟨none, "LAX", none, "JFK", [c4Flight]⟩

/-- Claim C4, counterexample: a parsed united response containing a fare
product with an unknown cabin classification for which
`standardizeResults` does not throw — the flight fails the date filter,
so the product is never examined and the function returns `ok []`. -/
theorem c4_counterexample :
    unitedCabin c4BadProduct.Description = none
    ∧ c4BadProduct ∈ c4Flight.Products
    ∧ c4Flight ∈ c4Trip.Flights
    ∧ c4BadProduct.Prices ≠ []
    ∧ unitedStandardizeResults ⟨"LAX", "JFK", "2026-04-28"⟩ c4Trip = .ok [] := by
  refine ⟨rfl, by decide, by decide, by decide, rfl⟩

/-- Claim C4 (amended): for every fare product the scraper actually
examines — united: priced products of a flight passing the
origin/destination/date filters; aa: `productAvailable` products of any
slice; alaska: fares of a single-segment slice matching the query — an
unresolvable cabin classification makes `standardizeResults` throw. -/
theorem c4_unknown_cabin_throws :
    (∀ (query : AwardWizQuery) (trip : UnitedTrip) (f : UnitedFlight),
       f ∈ trip.Flights →
       f.Origin = jsOrStr trip.RequestedOrigin trip.Origin →
       f.Destination = jsOrStr trip.RequestedDestination trip.Destination →
       strTake (f.DepartDateTime ++ ":00") 10 = strTake query.departureDate 10 →
       ∀ p ∈ f.Products, p.Prices ≠ [] → unitedCabin p.Description = none →
       ∃ e, unitedStandardizeResults query trip = .error e)
    ∧ (∀ (slices : List AASlice) (query : AwardWizQuery) (s : AASlice)
         (seg0 : AASegment),
       s ∈ slices → s.segments.head? = some seg0 →
       ∀ p ∈ s.pricingDetail, p.productAvailable = true →
       (∀ c, aaCabinOf seg0 p ≠ .ok c) →
       ∃ e, aaStandardizeResults slices query = .error e)
    ∧ (∀ (raw : AlaskaResponse) (query : AwardWizQuery) (s : AlaskaSlice)
         (seg : AlaskaSegment),
       s ∈ raw.slices.getD [] → s.segments = [seg] →
       seg.departureStation = query.origin → seg.arrivalStation = query.destination →
       ∀ fare ∈ s.fares,
       alaskaCabin ((fare.cabins.head?).getD "") = none →
       ∃ e, alaskaStandardizeResults raw query = .error e) := by
  refine ⟨?_, ?_, ?_⟩
  · intro query trip f hf h1 h2 h3 p hp hpr hnone
    cases hres : unitedStandardizeResults query trip with
    | error e => exact ⟨e, rfl⟩
    | ok res =>
      have hknown := unitedGo_known trip.Flights query trip res hres f hf h1 h2 h3 p hp hpr
      rw [hnone] at hknown
      cases hknown
  · intro slices query s seg0 hs hseg0 p hp hav hnotok
    cases hres : aaStandardizeResults slices query with
    | error e => exact ⟨e, rfl⟩
    | ok res =>
      obtain ⟨c, hc⟩ := aaStandardizeResults_known slices query res hres s hs p hp hav
        seg0 hseg0
      exact absurd hc (hnotok c)
  · intro raw query s seg hs hseg ho hd fare hfare hnone
    cases hres : alaskaStandardizeResults raw query with
    | error e => exact ⟨e, rfl⟩
    | ok res =>
      have hknown := alaskaGo_known (raw.slices.getD []) query res hres s hs seg hseg
        ho hd fare hfare
      rw [hnone] at hknown
      cases hknown.2.2

/-- Claim C4 witness data: a united trip whose only flight passes the
filters and carries an unknown-cabin product. -/
def c4wTrip : UnitedTrip :=
  ⟨none, "LAX", none, "JFK",
   [⟨"2026-04-28T10:00", "2026-04-28T13:00", "LAX", "JFK", "UA", "1", 300,
     ⟨"Boeing 777"⟩, [], [⟨[⟨10000, "miles"⟩], some "X", "Mystery Cabin"⟩]⟩]⟩

/-- Claim C4 witness data: an aa slice whose only available product has
an unresolvable cabin classification. -/
def c4wAASlice : AASlice :=
  ⟨[c8DemoSegment], 300, [⟨true, none, "WEIRD", ⟨0, "USD"⟩, 1000⟩]⟩

/-- Claim C4 witness data: an alaska response whose single-segment
matching slice has a fare with a non-whitelisted cabin. -/
def c4wAlaskaResponse : AlaskaResponse :=
  ⟨some [⟨[⟨"2026-04-28T10:00:00", "2026-04-28T13:00:00", "LAX", "JFK",
      ⟨"AS", "1"⟩, 180, "B739", []⟩],
    [⟨["Y"], ["WEIRD"], 10, 1000⟩]⟩]⟩

/-- Claim C4, witness: each scraper throws on a concrete examined product
with an unknown classification. -/
theorem c4_witness :
    (∃ e, unitedStandardizeResults ⟨"LAX", "JFK", "2026-04-28"⟩ c4wTrip = .error e)
    ∧ (∃ e, aaStandardizeResults [c4wAASlice] ⟨"LAX", "JFK", "2026-04-28"⟩ = .error e)
    ∧ (∃ e, alaskaStandardizeResults c4wAlaskaResponse ⟨"LAX", "JFK", "2026-04-28"⟩
        = .error e) := by
  refine ⟨?_, ?_, ?_⟩
  · exact c4_unknown_cabin_throws.1 ⟨"LAX", "JFK", "2026-04-28"⟩ c4wTrip
      ⟨"2026-04-28T10:00", "2026-04-28T13:00", "LAX", "JFK", "UA", "1", 300,
        ⟨"Boeing 777"⟩, [], [⟨[⟨10000, "miles"⟩], some "X", "Mystery Cabin"⟩]⟩
      (by decide) rfl rfl rfl
      ⟨[⟨10000, "miles"⟩], some "X", "Mystery Cabin"⟩ (by decide) (by decide) rfl
  · exact c4_unknown_cabin_throws.2.1 [c4wAASlice] ⟨"LAX", "JFK", "2026-04-28"⟩
      c4wAASlice c8DemoSegment (by decide) rfl
      ⟨true, none, "WEIRD", ⟨0, "USD"⟩, 1000⟩ (by decide) rfl
      (fun c hcon => by cases hcon)
  · exact c4_unknown_cabin_throws.2.2 c4wAlaskaResponse ⟨"LAX", "JFK", "2026-04-28"⟩
      ⟨[⟨"2026-04-28T10:00:00", "2026-04-28T13:00:00", "LAX", "JFK",
          ⟨"AS", "1"⟩, 180, "B739", []⟩],
        [⟨["Y"], ["WEIRD"], 10, 1000⟩]⟩
      ⟨"2026-04-28T10:00:00", "2026-04-28T13:00:00", "LAX", "JFK",
        ⟨"AS", "1"⟩, 180, "B739", []⟩
      (by decide) rfl rfl rfl ⟨["Y"], ["WEIRD"], 10, 1000⟩ (by decide) rfl
